import Mathlib

/-!
Shallow embedding of the three vote-extraction scripts of this repository
(`parser-vk.py`, `parser-tg.py`, `parser.py`) and proofs about them.

Modelling conventions:

* Python strings are `String`/`List Char`.  The regex class `\d` is modelled
  as the ASCII digits and `\s` / `str.strip()` as the ASCII whitespace class
  (all inputs of interest use ASCII digits and spaces).
* Each regular expression of the sources is translated into an explicit
  matching function.  Wherever a regex quantifier could backtrack, the
  maximal-munch translation is equivalent: every `\d+`/`\d{1,2}` in the
  sources is followed by a character class disjoint from the digits
  (whitespace, `:`, a Cyrillic letter, end of a bracket), so giving back a
  digit can never make the remainder match.
* `datetime` values are minute-precision records.  `second`/`microsecond`
  are dropped: every recognized branch of `parse_date` either leaves them
  unchanged or zeroes them, and the emitted `%d.%m.%Y %H:%M` format has
  minute precision, so they are unobservable here.
* A raised exception (`ValueError` of the constructor / `replace`, or
  `OverflowError` of date subtraction) is modelled as `none`: fallible code
  returns `Option`.
* The instant sampled via `datetime.now()` inside `parse_date` is passed as
  an explicit `now` argument holding the sampled value, which makes the
  dependence of the result on the sampling instant provable.
* The `while i < len(lines)` scanning loops are embedded as fuel-indexed
  structural recursions; `lines.length` fuel is enough because the cursor
  advances past at least one line per iteration (proved below as the
  cursor-progress theorem).
-/

namespace VkScripts

/-! ## Character classes and Python string primitives -/

/-- Python `str.strip()` whitespace class (ASCII part). -/
def pyIsSpace (c : Char) : Bool :=
  c.toNat = 32 || c.toNat = 9 || c.toNat = 10 || c.toNat = 13 || c.toNat = 11 || c.toNat = 12

/-- The regex class `\d` (ASCII digits). -/
def pyIsDigit (c : Char) : Bool := 48 ≤ c.toNat && c.toNat ≤ 57

/-- Numeric value of a digit character. -/
def digitVal (c : Char) : Nat := c.toNat - 48

/-- The digit character of `n < 10`. -/
def digitChar (n : Nat) : Char := Char.ofNat (48 + n)

/-- Python `str.lower()` on the alphabets used by the scripts:
ASCII `A`–`Z` and Cyrillic `А`–`Я`, `Ё`. -/
def pyLowerChar (c : Char) : Char :=
  if 65 ≤ c.toNat && c.toNat ≤ 90 then Char.ofNat (c.toNat + 32)
  else if 1040 ≤ c.toNat && c.toNat ≤ 1071 then Char.ofNat (c.toNat + 32)
  else if c.toNat = 1025 then Char.ofNat 1105
  else c

def pyLower (l : List Char) : List Char := l.map pyLowerChar

def pyStripL (l : List Char) : List Char := l.dropWhile pyIsSpace

def pyStripR (l : List Char) : List Char := (l.reverse.dropWhile pyIsSpace).reverse

/-- Python `str.strip()`. -/
def pyStrip (l : List Char) : List Char := pyStripR (pyStripL l)

/-- `pat.isPrefixOf l` for the literal part of a regex. -/
def startsWithL : List Char → List Char → Bool
  | [], _ => true
  | _ :: _, [] => false
  | p :: ps, c :: cs => c = p && startsWithL ps cs

/-- Python `pat in line` (substring containment). -/
def containsL (pat : List Char) : List Char → Bool
  | [] => startsWithL pat []
  | c :: cs => startsWithL pat (c :: cs) || containsL pat cs

/-! ## Regex building blocks -/

/-- Maximal digit run: `(takeWhile, dropWhile)` over `\d`. -/
def spanDigits (l : List Char) : List Char × List Char :=
  (l.takeWhile pyIsDigit, l.dropWhile pyIsDigit)

/-- Decimal value of a digit run. -/
def digitsVal (l : List Char) : Nat := l.foldl (fun a c => 10 * a + digitVal c) 0

/-- Consume a literal: `parseLit pat input = some rest` iff `pat` is a prefix. -/
def parseLit : List Char → List Char → Option (List Char)
  | [], r => some r
  | _ :: _, [] => none
  | p :: ps, c :: cs => if c = p then parseLit ps cs else none

/-- `\s+` (maximal munch; equivalent to the backtracking regex, see header). -/
def parseSpaces1 (l : List Char) : Option (List Char) :=
  match l.takeWhile pyIsSpace with
  | [] => none
  | _ :: _ => some (l.dropWhile pyIsSpace)

/-- `(\d+)` (maximal munch). -/
def parseDigits1 (l : List Char) : Option (Nat × List Char) :=
  match spanDigits l with
  | ([], _) => none
  | (ds, r) => some (digitsVal ds, r)

def parseNDigitsAux : Nat → Nat → List Char → Option (Nat × List Char)
  | 0, acc, l => some (acc, l)
  | _ + 1, _, [] => none
  | n + 1, acc, c :: cs =>
    if pyIsDigit c then parseNDigitsAux n (10 * acc + digitVal c) cs else none

/-- `\d{n}` (exactly `n` digits). -/
def parseNDigits (n : Nat) (l : List Char) : Option (Nat × List Char) :=
  parseNDigitsAux n 0 l

/-- `(\d{1,2}):` — a 1–2 digit run followed by `:`, consuming the colon. -/
def parse12Colon (l : List Char) : Option (Nat × List Char) :=
  match spanDigits l with
  | (ds, ':' :: r) =>
    if ds.length = 1 || ds.length = 2 then some (digitsVal ds, r) else none
  | _ => none

/-- `(\d{1,2})` that must be followed by whitespace (not consumed). -/
def parse12Sp (l : List Char) : Option (Nat × List Char) :=
  match spanDigits l with
  | (ds, r) =>
    if (ds.length = 1 || ds.length = 2) &&
        (match r with | c :: _ => pyIsSpace c | [] => false)
    then some (digitsVal ds, r) else none

/-! ## The `parse_date` pattern matchers -/

/-- `re.match(r"(\d+)\s+минут", raw_l)`. -/
def matchMinutes (l : List Char) : Option Nat := do
  let (n, r1) ← parseDigits1 l
  let r2 ← parseSpaces1 r1
  let _ ← parseLit "минут".data r2
  pure n

/-- `re.match(r"(\d+)\s+час", raw_l)`. -/
def matchHours (l : List Char) : Option Nat := do
  let (n, r1) ← parseDigits1 l
  let r2 ← parseSpaces1 r1
  let _ ← parseLit "час".data r2
  pure n

/-- `textual_map = {'час назад': 1, 'два часа назад': 2, 'три часа назад': 3}`
membership test. -/
def textualMap (l : List Char) : Option Nat :=
  if l = "час назад".data then some 1
  else if l = "два часа назад".data then some 2
  else if l = "три часа назад".data then some 3
  else none

/-- `re.match(r"сегодня в (\d{1,2}):(\d{2})", raw_l)`. -/
def matchToday (l : List Char) : Option (Nat × Nat) := do
  let r1 ← parseLit "сегодня в ".data l
  let (h, r2) ← parse12Colon r1
  let (mi, _) ← parseNDigits 2 r2
  pure (h, mi)

/-- `re.match(r"вчера в (\d{1,2}):(\d{2})", raw_l)`. -/
def matchYesterday (l : List Char) : Option (Nat × Nat) := do
  let r1 ← parseLit "вчера в ".data l
  let (h, r2) ← parse12Colon r1
  let (mi, _) ← parseNDigits 2 r2
  pure (h, mi)

/-- `mon_map`, in source order. -/
def monthStems : List (List Char × Nat) :=
  [("янв".data, 1), ("фев".data, 2), ("мар".data, 3), ("апр".data, 4),
   ("май".data, 5), ("июн".data, 6), ("июл".data, 7), ("авг".data, 8),
   ("сен".data, 9), ("окт".data, 10), ("ноя".data, 11), ("дек".data, 12)]

def parseStem : List (List Char × Nat) → List Char → Option (Nat × List Char)
  | [], _ => none
  | (s, v) :: rest, l =>
    match parseLit s l with
    | some r => some (v, r)
    | none => parseStem rest l

/-- `re.match(r"(\d{1,2})\s+(янв|...|дек) в (\d{1,2}):(\d{2})", raw_l)`. -/
def matchMonthDate (l : List Char) : Option (Nat × Nat × Nat × Nat) := do
  let (d, r1) ← parse12Sp l
  let r2 ← parseSpaces1 r1
  let (mon, r3) ← parseStem monthStems r2
  let r4 ← parseLit " в ".data r3
  let (h, r5) ← parse12Colon r4
  let (mi, _) ← parseNDigits 2 r5
  pure (d, mon, h, mi)

/-- `re.match(r"(\d{2})\.(\d{2})\.(\d{4})\s+(\d{1,2}):(\d{2})", raw_l)`
(the absolute-date pattern, present only in `parser-tg.py`). -/
def matchAbs (l : List Char) : Option (Nat × Nat × Nat × Nat × Nat) := do
  let (d, r1) ← parseNDigits 2 l
  let r2 ← parseLit ".".data r1
  let (m, r3) ← parseNDigits 2 r2
  let r4 ← parseLit ".".data r3
  let (y, r5) ← parseNDigits 4 r4
  let r6 ← parseSpaces1 r5
  let (h, r7) ← parse12Colon r6
  let (mi, _) ← parseNDigits 2 r7
  pure (d, m, y, h, mi)

/-! ## The `datetime` model -/

structure PyDateTime where
  year : Nat
  month : Nat
  day : Nat
  hour : Nat
  minute : Nat
deriving DecidableEq, Repr

def isLeap (y : Nat) : Bool := (y % 4 = 0 && ¬ y % 100 = 0) || y % 400 = 0

def daysInMonth (y m : Nat) : Nat :=
  if m = 2 then (if isLeap y then 29 else 28)
  else if m = 4 || m = 6 || m = 9 || m = 11 then 30
  else 31

def daysBeforeMonth (y m : Nat) : Nat :=
  let base := [0, 0, 31, 59, 90, 120, 151, 181, 212, 243, 273, 304, 334].getD m 0
  if 3 ≤ m && isLeap y then base + 1 else base

/-- `datetime.date.toordinal`: day 1 is 0001-01-01 (proleptic Gregorian). -/
def toOrdinal (y m d : Nat) : Nat :=
  365 * (y - 1) + (y - 1) / 4 - (y - 1) / 100 + (y - 1) / 400 + daysBeforeMonth y m + d

/-- Minutes since 0001-01-01 00:00. -/
def toMin (t : PyDateTime) : Nat :=
  (toOrdinal t.year t.month t.day - 1) * 1440 + t.hour * 60 + t.minute

def monthScanAux (y : Nat) : Nat → Nat → Nat → Nat × Nat
  | 0, m, doy => (m, doy)
  | fuel + 1, m, doy =>
    let dim := daysInMonth y m
    if doy ≤ dim then (m, doy) else monthScanAux y fuel (m + 1) (doy - dim)

/-- Inverse of `toOrdinal` (CPython `_ord2ymd`). -/
def fromOrdinal (nn : Nat) : Nat × Nat × Nat :=
  let n := nn - 1
  let n400 := n / 146097
  let r400 := n % 146097
  let n100 := r400 / 36524
  let r100 := r400 % 36524
  let n4 := r100 / 1461
  let r4 := r100 % 1461
  let n1 := r4 / 365
  let r1 := r4 % 365
  let year := n400 * 400 + n100 * 100 + n4 * 4 + n1 + 1
  if n1 = 4 || n100 = 4 then (year - 1, 12, 31)
  else
    let md := monthScanAux year 12 1 (r1 + 1)
    (year, md.1, md.2)

def fromMin (t : Nat) : PyDateTime :=
  let ymd := fromOrdinal (t / 1440 + 1)
  { year := ymd.1, month := ymd.2.1, day := ymd.2.2,
    hour := t % 1440 / 60, minute := t % 60 }

/-- `dt - timedelta(minutes=k)`; `none` models Python's `OverflowError` when
the result would fall before `datetime.min` (year 1). -/
def subMinutes (t : PyDateTime) (k : Nat) : Option PyDateTime :=
  if toMin t < k then none else some (fromMin (toMin t - k))

/-- `dt.replace(hour=h, minute=mi, second=0, microsecond=0)`; the new field
values are re-validated as by the constructor (`ValueError` as `none`);
the remaining fields are `dt`'s own, already-valid ones. -/
def replaceHM (t : PyDateTime) (h mi : Nat) : Option PyDateTime :=
  if h ≤ 23 && mi ≤ 59 then some { t with hour := h, minute := mi } else none

def validYMDHM (y m d h mi : Nat) : Bool :=
  1 ≤ y && y ≤ 9999 && 1 ≤ m && m ≤ 12 && 1 ≤ d && d ≤ daysInMonth y m &&
    h ≤ 23 && mi ≤ 59

/-- `datetime(y, m, d, h, mi)`; a `ValueError` is `none`. -/
def mkDatetime (y m d h mi : Nat) : Option PyDateTime :=
  if validYMDHM y m d h mi then some ⟨y, m, d, h, mi⟩ else none

def natDigitsAux : Nat → Nat → List Char
  | 0, _ => []
  | fuel + 1, n =>
    if n < 10 then [digitChar n]
    else natDigitsAux fuel (n / 10) ++ [digitChar (n % 10)]

/-- Decimal digits of `n` (what `%Y` prints: unpadded). -/
def natDec (n : Nat) : List Char := natDigitsAux (n + 1) n

/-- `%02d`: zero-padded to two characters. -/
def pad2L (n : Nat) : List Char := if n < 10 then '0' :: natDec n else natDec n

/-- `dt.strftime('%d.%m.%Y %H:%M')`. -/
def strftimeDmy (t : PyDateTime) : String :=
  ⟨pad2L t.day ++ '.' :: pad2L t.month ++ '.' :: natDec t.year ++
    ' ' :: pad2L t.hour ++ ':' :: pad2L t.minute⟩

/-! ## `parse_date` of `parser-vk.py` and of `parser-tg.py` -/

/-- `parse_date` of `parser-vk.py`.  The instant the function samples with
`now = datetime.now()` is the explicit `now` argument; a raised exception is
`none`. -/
def parse_date_vk (raw : String) (now : PyDateTime) : Option String :=
  if raw = "" then some "" else
  let rl := pyStrip (pyLower raw.data)
  match matchMinutes rl with
  | some n => (subMinutes now n).map strftimeDmy
  | none =>
  match textualMap rl with
  | some hrs => (subMinutes now (hrs * 60)).map strftimeDmy
  | none =>
  match matchHours rl with
  | some n => (subMinutes now (n * 60)).map strftimeDmy
  | none =>
  match matchToday rl with
  | some hm => (replaceHM now hm.1 hm.2).map strftimeDmy
  | none =>
  match matchYesterday rl with
  | some hm => ((subMinutes now 1440).bind (replaceHM · hm.1 hm.2)).map strftimeDmy
  | none =>
  match matchMonthDate rl with
  | some r => (mkDatetime now.year r.2.1 r.1 r.2.2.1 r.2.2.2).map strftimeDmy
  | none => some raw

/-- `parse_date` of `parser-tg.py`: identical to the vk variant except for the
leading absolute-date pattern. -/
def parse_date_tg (raw : String) (now : PyDateTime) : Option String :=
  if raw = "" then some "" else
  let rl := pyStrip (pyLower raw.data)
  match matchAbs rl with
  | some r => (mkDatetime r.2.2.1 r.2.1 r.1 r.2.2.2.1 r.2.2.2.2).map strftimeDmy
  | none =>
  match matchMinutes rl with
  | some n => (subMinutes now n).map strftimeDmy
  | none =>
  match textualMap rl with
  | some hrs => (subMinutes now (hrs * 60)).map strftimeDmy
  | none =>
  match matchHours rl with
  | some n => (subMinutes now (n * 60)).map strftimeDmy
  | none =>
  match matchToday rl with
  | some hm => (replaceHM now hm.1 hm.2).map strftimeDmy
  | none =>
  match matchYesterday rl with
  | some hm => ((subMinutes now 1440).bind (replaceHM · hm.1 hm.2)).map strftimeDmy
  | none =>
  match matchMonthDate rl with
  | some r => (mkDatetime now.year r.2.1 r.1 r.2.2.1 r.2.2.2).map strftimeDmy
  | none => some raw

/-! ## The `parse_votes` extractors -/

/-- One extracted vote, the record shape shared by all three scripts
(name, participant number, raw date phrase). -/
structure VoteRecord where
  username : String
  participant : Nat
  rawDate : String
deriving DecidableEq, Repr

/-- `show_votes_marker = "Показать список оценивших"`. -/
def markerL : List Char := "Показать список оценивших".data

/-- An attempt of `user_link_re = \[([^\]]+)\]\(https://vk\.com/[^)]+\)`
anchored at the current position; yields group 1 (the name). -/
def tryUserAt : List Char → Option (List Char)
  | '[' :: r =>
    let name := r.takeWhile (fun c => ¬ c = ']')
    let rest := r.dropWhile (fun c => ¬ c = ']')
    if name.isEmpty then none else
    match parseLit "](https://vk.com/".data rest with
    | none => none
    | some r2 =>
      let path := r2.takeWhile (fun c => ¬ c = ')')
      let r3 := r2.dropWhile (fun c => ¬ c = ')')
      if path.isEmpty then none else
      match r3 with
      | ')' :: _ => some name
      | _ => none
  | _ => none

/-- `user_link_re.search(line)`: leftmost match of the link pattern. -/
def userSearch : List Char → Option (List Char)
  | [] => none
  | c :: cs =>
    match tryUserAt (c :: cs) with
    | some name => some name
    | none => userSearch cs

/-- `number_re.search(comment)` for `number_re = ([1-9][0-9]?)`: leftmost
nonzero digit, greedily extended by at most one more digit. -/
def numberSearch : List Char → Option Nat
  | [] => none
  | c :: cs =>
    if 49 ≤ c.toNat && c.toNat ≤ 57 then
      match cs with
      | d :: _ =>
        if pyIsDigit d then some (10 * digitVal c + digitVal d) else some (digitVal c)
      | [] => some (digitVal c)
    else numberSearch cs

/-- `re.match(r"\[([^]]+)\]\(", line.strip())` of the vk date line:
a link-leading bracketed phrase; yields group 1. -/
def strictDateLine : List Char → Option (List Char)
  | '[' :: r =>
    let g := r.takeWhile (fun c => ¬ c = ']')
    if g.isEmpty then none else
    match r.dropWhile (fun c => ¬ c = ']') with
    | ']' :: '(' :: _ => some g
    | _ => none
  | _ => none

/-! ### Layout A (`parser-tg.py`) -/

/-- The date part of `header_re`: `\d{2}\.\d{2}\.\d{4} \d{1,2}:\d{2}`,
matched against the whole bracketed substring. -/
def headerDate (l : List Char) : Bool :=
  (do
    let (_, r1) ← parseNDigits 2 l
    let r2 ← parseLit ".".data r1
    let (_, r3) ← parseNDigits 2 r2
    let r4 ← parseLit ".".data r3
    let (_, r5) ← parseNDigits 4 r4
    let r6 ← parseLit " ".data r5
    let (_, r7) ← parse12Colon r6
    let (_, r8) ← parseNDigits 2 r7
    if r8.isEmpty then some () else none).isSome

/-- One split candidate of `header_re = ^(.+), \[(...)\]$`: the date substring
has `dateLen` characters (15 with a 1-digit hour, 16 with a 2-digit hour), so
the suffix `", [" ++ date ++ "]"` has `dateLen + 4` and the (nonempty) name is
everything before it. -/
def headerTry (l : List Char) (dateLen : Nat) : Option (String × String) :=
  let sufLen := dateLen + 4
  if l.length < sufLen + 1 then none else
  let name := l.take (l.length - sufLen)
  match l.drop (l.length - sufLen) with
  | ',' :: ' ' :: '[' :: rest =>
    match rest.getLast? with
    | some ']' =>
      let mid := rest.dropLast
      if headerDate mid then some (⟨name⟩, ⟨mid⟩) else none
    | _ => none
  | _ => none

/-- `header_re.match(line)`: the greedy `(.+)` prefers the longer name, i.e.
the shorter (1-digit-hour) date suffix is tried first. -/
def headerMatch (s : String) : Option (String × String) :=
  match headerTry s.data 15 with
  | some r => some r
  | none => headerTry s.data 16

/-- The `while i < len(lines)` loop of `parse_votes` in `parser-tg.py`
(lines already `.strip()`-ed at read time). -/
def tgLoop : List String → List VoteRecord
  | [] => []
  | l :: rest =>
    match headerMatch l with
    | some nd =>
      match rest with
      | c :: rest2 =>
        match numberSearch c.data with
        | some n => ⟨nd.1, n, nd.2⟩ :: tgLoop rest2
        | none => tgLoop rest2
      | [] => []
    | none => tgLoop rest

/-- `parse_votes` of `parser-tg.py` (the record list fed to the DataFrame). -/
def parse_votes_tg (lines : List String) : List VoteRecord := tgLoop lines

/-! ### Layout B, strict variant (`parser-vk.py`) -/

/-- The comment-skipping condition of the `j`-loop in `parser-vk.py`:
`not lines[j].strip() or lines[j].startswith('![') or lines[j].startswith('[](')`. -/
def vkSkippable (l : List Char) : Bool :=
  (pyStrip l).isEmpty || startsWithL "![".data l || startsWithL "[](".data l

/-- The `j`-loop: first non-skippable line, together with the lines after it. -/
def vkFindComment : List (List Char) → Option (List Char × List (List Char))
  | [] => none
  | l :: rest => if vkSkippable l then vkFindComment rest else some (l, rest)

/-- The `k`-loop of `parser-vk.py` over the lines after the comment: at the
first marker line the date is read from the line exactly two further on
(`idx = k + 2`), via `strictDateLine` on its stripped form; otherwise `''`. -/
def findRawDateVk : List (List Char) → String
  | [] => ""
  | l :: rest =>
    if containsL markerL l then
      match rest with
      | _ :: d :: _ =>
        match strictDateLine (pyStrip d) with
        | some g => ⟨g⟩
        | none => ""
      | _ => ""
    else findRawDateVk rest

/-- The `while i < len(lines)` loop of `parse_votes` in `parser-vk.py`,
fuel-indexed (lines are the file lines with the trailing newline removed). -/
def vkLoopF : Nat → List (List Char) → List VoteRecord
  | 0, _ => []
  | _, [] => []
  | fuel + 1, l :: rest =>
    match userSearch (pyStrip l) with
    | none => vkLoopF fuel rest
    | some name =>
      match vkFindComment rest with
      | none => vkLoopF fuel rest
      | some cr =>
        match numberSearch (pyStrip cr.1) with
        | none => vkLoopF fuel cr.2
        | some n => ⟨⟨name⟩, n, findRawDateVk cr.2⟩ :: vkLoopF fuel cr.2

/-- `parse_votes` of `parser-vk.py` (the record list fed to the DataFrame). -/
def parse_votes_vk (lines : List String) : List VoteRecord :=
  vkLoopF lines.length (lines.map String.data)

/-! ### Layout B, loose variant (`parser.py`) -/

/-- The user test of `parser.py`:
`user_link_re.search(line) and not line.startswith('![')`. -/
def pyUser (l : List Char) : Option (List Char) :=
  match userSearch l with
  | some name => if startsWithL "![".data l then none else some name
  | none => none

def pyIsUser (l : List Char) : Bool := (pyUser l).isSome

/-- The participant-skipping condition inside the block loop of `parser.py`:
`not b or b.startswith('![') or b.startswith('[](')`. -/
def pySkippable (l : List Char) : Bool :=
  l.isEmpty || startsWithL "![".data l || startsWithL "[](".data l

/-- The participant loop of `parser.py`: the first number found on any
non-skippable block line (lines without a number are passed over). -/
def pyFindParticipant : List (List Char) → Option Nat
  | [] => none
  | b :: rest =>
    if pySkippable b then pyFindParticipant rest
    else
      match numberSearch b with
      | some n => some n
      | none => pyFindParticipant rest

/-- An attempt of
`date_re = \[(\d{1,2} (?:янв|...|дек) в \d{1,2}:\d{2})\]` (IGNORECASE)
anchored at the current position; yields group 1 in original case. -/
def tryDateAt : List Char → Option (List Char)
  | '[' :: r =>
    let ds := r.takeWhile pyIsDigit
    let r1 := r.dropWhile pyIsDigit
    if ds.length = 0 || 3 ≤ ds.length then none else
    match r1 with
    | ' ' :: a :: b :: c :: s1 :: v :: s2 :: r4 =>
      if monthStems.any (fun sv => sv.1 = [pyLowerChar a, pyLowerChar b, pyLowerChar c]) &&
          s1 = ' ' && pyLowerChar v = 'в' && s2 = ' ' then
        let hs := r4.takeWhile pyIsDigit
        let r5 := r4.dropWhile pyIsDigit
        if hs.length = 0 || 3 ≤ hs.length then none else
        match r5 with
        | ':' :: m1 :: m2 :: ']' :: _ =>
          if pyIsDigit m1 && pyIsDigit m2 then
            some (ds ++ ' ' :: a :: b :: c :: s1 :: v :: s2 :: (hs ++ ':' :: m1 :: [m2]))
          else none
        | _ => none
      else none
    | _ => none
  | _ => none

/-- `date_re.search(line)`: leftmost match. -/
def pyDateSearch : List Char → Option (List Char)
  | [] => none
  | c :: cs =>
    match tryDateAt (c :: cs) with
    | some g => some g
    | none => pyDateSearch cs

/-- The date extraction of `parser.py`: find the first marker line of the
block, then take the first `date_re` match on ANY later block line. -/
def pyRawDate : List (List Char) → String
  | [] => ""
  | b :: rest =>
    if containsL markerL b then
      match rest.findSome? pyDateSearch with
      | some g => ⟨g⟩
      | none => ""
    else pyRawDate rest

/-- The `while i < len(lines)` loop of `parse_votes` in `parser.py`,
fuel-indexed (lines already `.strip()`-ed at read time). -/
def pyLoopF : Nat → List (List Char) → List VoteRecord
  | 0, _ => []
  | _, [] => []
  | fuel + 1, l :: rest =>
    match pyUser l with
    | none => pyLoopF fuel rest
    | some name =>
      let block := rest.takeWhile (fun x => ¬ pyIsUser x)
      let rest2 := rest.dropWhile (fun x => ¬ pyIsUser x)
      match pyFindParticipant block with
      | none => pyLoopF fuel rest2
      | some n => ⟨⟨name⟩, n, pyRawDate block⟩ :: pyLoopF fuel rest2

/-- `parse_votes` of `parser.py` (the record list fed to the DataFrame). -/
def parse_votes_py (lines : List String) : List VoteRecord :=
  pyLoopF lines.length (lines.map String.data)

/-! ### Cursor-step views of the two Layout-B loops -/

def vkFindCommentIdxAux : List (List Char) → Nat → Option Nat
  | [], _ => none
  | l :: rest, j => if vkSkippable l then vkFindCommentIdxAux rest (j + 1) else some j

/-- The `j`-loop of `parser-vk.py` as an index search: the first index `≥ j`
holding a non-skippable line, `none` if the scan runs past the end. -/
def vkFindCommentIdx (lines : List (List Char)) (j : Nat) : Option Nat :=
  vkFindCommentIdxAux (lines.drop j) j

/-- One iteration of the `while i < len(lines)` loop of `parser-vk.py`:
the value of the cursor `i` at the next iteration. -/
def vkNext (lines : List (List Char)) (i : Nat) : Nat :=
  match userSearch (pyStrip (lines.getD i [])) with
  | none => i + 1
  | some _ =>
    match vkFindCommentIdx lines (i + 1) with
    | none => i + 1
    | some j => j + 1

def pyBlockEndAux : List (List Char) → Nat → Nat
  | [], j => j
  | l :: rest, j => if pyIsUser l then j else pyBlockEndAux rest (j + 1)

/-- One iteration of the `while i < len(lines)` loop of `parser.py`:
the value of the cursor `i` at the next iteration (after a user line the
inner block loop stops at the next user line or at the end). -/
def pyNext (lines : List (List Char)) (i : Nat) : Nat :=
  if pyIsUser (lines.getD i []) then pyBlockEndAux (lines.drop (i + 1)) (i + 1)
  else i + 1

/-- No pattern of `parse_date` in `parser-vk.py` matches `raw`. -/
def vkNoMatch (raw : String) : Prop :=
  matchMinutes (pyStrip (pyLower raw.data)) = none ∧
  textualMap (pyStrip (pyLower raw.data)) = none ∧
  matchHours (pyStrip (pyLower raw.data)) = none ∧
  matchToday (pyStrip (pyLower raw.data)) = none ∧
  matchYesterday (pyStrip (pyLower raw.data)) = none ∧
  matchMonthDate (pyStrip (pyLower raw.data)) = none

/-- No pattern of `parse_date` in `parser-tg.py` matches `raw`. -/
def tgNoMatch (raw : String) : Prop :=
  matchAbs (pyStrip (pyLower raw.data)) = none ∧ vkNoMatch raw

instance (raw : String) : Decidable (vkNoMatch raw) := by
  unfold vkNoMatch; infer_instance

instance (raw : String) : Decidable (tgNoMatch raw) := by
  unfold tgNoMatch; infer_instance


/-- The canonical 16-character absolute form `DD.MM.YYYY HH:MM` built from
numeric components (two-digit day/month/hour/minute fields, four-digit
year). -/
def absFormL (d m y h mi : Nat) : List Char :=
  [digitChar (d / 10), digitChar (d % 10), '.', digitChar (m / 10), digitChar (m % 10), '.',
   digitChar (y / 1000), digitChar (y / 100 % 10), digitChar (y / 10 % 10), digitChar (y % 10),
   ' ', digitChar (h / 10), digitChar (h % 10), ':', digitChar (mi / 10), digitChar (mi % 10)]

def absForm (d m y h mi : Nat) : String := ⟨absFormL d m y h mi⟩

/-! ## Helper lemmas -/

theorem vkFindCommentIdxAux_ge :
    ∀ (ls : List (List Char)) (j k : Nat), vkFindCommentIdxAux ls j = some k → j ≤ k := by
  intro ls
  induction ls with
  | nil => intro j k h; simp [vkFindCommentIdxAux] at h
  | cons l rest ih =>
    intro j k h
    by_cases hs : vkSkippable l
    · simp [vkFindCommentIdxAux, hs] at h
      exact Nat.le_of_succ_le (ih (j + 1) k h)
    · simp [vkFindCommentIdxAux, hs] at h
      omega

theorem pyBlockEndAux_ge :
    ∀ (ls : List (List Char)) (j : Nat), j ≤ pyBlockEndAux ls j := by
  intro ls
  induction ls with
  | nil => intro j; simp [pyBlockEndAux]
  | cons l rest ih =>
    intro j
    by_cases hu : pyIsUser l
    · simp [pyBlockEndAux, hu]
    · simp only [pyBlockEndAux, hu, if_false, Bool.false_eq_true]
      exact Nat.le_of_succ_le (ih (j + 1))

theorem numberSearch_bound :
    ∀ (l : List Char) (n : Nat), numberSearch l = some n → 1 ≤ n ∧ n ≤ 99 := by
  intro l
  induction l with
  | nil => intro n h; simp [numberSearch] at h
  | cons c cs ih =>
    intro n h
    by_cases hc : (49 ≤ c.toNat && c.toNat ≤ 57) = true
    · simp only [numberSearch, hc, if_true] at h
      simp only [Bool.and_eq_true, decide_eq_true_eq] at hc
      match cs, h with
      | [], h => simp only [Option.some.injEq] at h; unfold digitVal at h; omega
      | d :: _, h =>
        by_cases hd : pyIsDigit d = true
        · simp only [hd, if_true, Option.some.injEq] at h
          have hd' : 48 ≤ d.toNat ∧ d.toNat ≤ 57 := by
            simpa [pyIsDigit, Bool.and_eq_true, decide_eq_true_eq] using hd
          unfold digitVal at h; omega
        · simp only [hd, if_false, Bool.false_eq_true, Option.some.injEq] at h
          unfold digitVal at h; omega
    · simp only [numberSearch, hc, if_false, Bool.false_eq_true] at h
      exact ih n h

theorem tgLoop_bound :
    ∀ (N : Nat) (lines : List String), lines.length ≤ N →
      ∀ r ∈ tgLoop lines, 1 ≤ r.participant ∧ r.participant ≤ 99 := by
  intro N
  induction N with
  | zero =>
    intro lines hlen r hr
    match lines, hlen with
    | [], _ => simp [tgLoop] at hr
  | succ N ih =>
    intro lines hlen r hr
    match lines with
    | [] => simp [tgLoop] at hr
    | l :: rest =>
      cases hh : headerMatch l with
      | none =>
        simp only [tgLoop, hh] at hr
        exact ih rest (by simp at hlen; omega) r hr
      | some nd =>
        match rest with
        | [] => simp [tgLoop, hh] at hr
        | c :: rest2 =>
          cases hn : numberSearch c.data with
          | none =>
            simp only [tgLoop, hh, hn] at hr
            exact ih rest2 (by simp at hlen; omega) r hr
          | some n =>
            simp only [tgLoop, hh, hn, List.mem_cons] at hr
            cases hr with
            | inl he => subst he; exact numberSearch_bound c.data n hn
            | inr hr => exact ih rest2 (by simp at hlen; omega) r hr

theorem vkLoopF_bound :
    ∀ (fuel : Nat) (ls : List (List Char)), ∀ r ∈ vkLoopF fuel ls,
      1 ≤ r.participant ∧ r.participant ≤ 99 := by
  intro fuel
  induction fuel with
  | zero => intro ls r hr; simp [vkLoopF] at hr
  | succ fuel ih =>
    intro ls r hr
    match ls with
    | [] => simp [vkLoopF] at hr
    | l :: rest =>
      cases hu : userSearch (pyStrip l) with
      | none => simp only [vkLoopF, hu] at hr; exact ih rest r hr
      | some name =>
        cases hc : vkFindComment rest with
        | none => simp only [vkLoopF, hu, hc] at hr; exact ih rest r hr
        | some cr =>
          cases hn : numberSearch (pyStrip cr.1) with
          | none => simp only [vkLoopF, hu, hc, hn] at hr; exact ih cr.2 r hr
          | some n =>
            simp only [vkLoopF, hu, hc, hn, List.mem_cons] at hr
            cases hr with
            | inl he => subst he; exact numberSearch_bound (pyStrip cr.1) n hn
            | inr hr => exact ih cr.2 r hr

theorem pyFindParticipant_bound :
    ∀ (block : List (List Char)) (n : Nat), pyFindParticipant block = some n →
      1 ≤ n ∧ n ≤ 99 := by
  intro block
  induction block with
  | nil => intro n h; simp [pyFindParticipant] at h
  | cons b rest ih =>
    intro n h
    by_cases hs : pySkippable b = true
    · simp only [pyFindParticipant, hs, if_true] at h; exact ih n h
    · simp only [pyFindParticipant, hs, if_false, Bool.false_eq_true] at h
      cases hn : numberSearch b with
      | none => simp only [hn] at h; exact ih n h
      | some k =>
        simp only [hn, Option.some.injEq] at h
        subst h
        exact numberSearch_bound b k hn

theorem pyLoopF_bound :
    ∀ (fuel : Nat) (ls : List (List Char)), ∀ r ∈ pyLoopF fuel ls,
      1 ≤ r.participant ∧ r.participant ≤ 99 := by
  intro fuel
  induction fuel with
  | zero => intro ls r hr; simp [pyLoopF] at hr
  | succ fuel ih =>
    intro ls r hr
    match ls with
    | [] => simp [pyLoopF] at hr
    | l :: rest =>
      cases hu : pyUser l with
      | none => simp only [pyLoopF, hu] at hr; exact ih rest r hr
      | some name =>
        cases hp : pyFindParticipant (rest.takeWhile fun x => ¬ pyIsUser x) with
        | none =>
          simp only [pyLoopF, hu, hp] at hr
          exact ih (rest.dropWhile fun x => ¬ pyIsUser x) r hr
        | some n =>
          simp only [pyLoopF, hu, hp, List.mem_cons] at hr
          cases hr with
          | inl he =>
            subst he
            exact pyFindParticipant_bound _ n hp
          | inr hr => exact ih (rest.dropWhile fun x => ¬ pyIsUser x) r hr

theorem digitChar_toNat {n : Nat} (h : n < 10) : (digitChar n).toNat = 48 + n := by
  interval_cases n <;> decide

theorem pyIsDigit_digitChar {n : Nat} (h : n < 10) : pyIsDigit (digitChar n) = true := by
  interval_cases n <;> decide

theorem digitVal_digitChar {n : Nat} (h : n < 10) : digitVal (digitChar n) = n := by
  interval_cases n <;> decide

theorem pyIsSpace_digitChar {n : Nat} (h : n < 10) : pyIsSpace (digitChar n) = false := by
  interval_cases n <;> decide

theorem pyLowerChar_digitChar {n : Nat} (h : n < 10) : pyLowerChar (digitChar n) = digitChar n := by
  interval_cases n <;> decide

theorem digitChar_ne_big {n : Nat} {c : Char} (h : n < 10) (hc : 58 ≤ c.toNat) :
    digitChar n ≠ c := by
  intro he
  have := congrArg Char.toNat he
  rw [digitChar_toNat h] at this
  omega

theorem parse2_split {d : Nat} (hd : d ≤ 99) (r : List Char) :
    parseNDigits 2 (digitChar (d / 10) :: digitChar (d % 10) :: r) = some (d, r) := by
  have h1 : d / 10 < 10 := by omega
  have h2 : d % 10 < 10 := by omega
  simp [parseNDigits, parseNDigitsAux, pyIsDigit_digitChar h1, pyIsDigit_digitChar h2,
    digitVal_digitChar h1, digitVal_digitChar h2]
  omega

theorem parse4_split {y : Nat} (hy : y ≤ 9999) (r : List Char) :
    parseNDigits 4 (digitChar (y / 1000) :: digitChar (y / 100 % 10) ::
      digitChar (y / 10 % 10) :: digitChar (y % 10) :: r) = some (y, r) := by
  have h1 : y / 1000 < 10 := by omega
  have h2 : y / 100 % 10 < 10 := by omega
  have h3 : y / 10 % 10 < 10 := by omega
  have h4 : y % 10 < 10 := by omega
  simp [parseNDigits, parseNDigitsAux, pyIsDigit_digitChar h1, pyIsDigit_digitChar h2,
    pyIsDigit_digitChar h3, pyIsDigit_digitChar h4, digitVal_digitChar h1,
    digitVal_digitChar h2, digitVal_digitChar h3, digitVal_digitChar h4]
  omega

theorem parse12Colon_split {h : Nat} (hh : h ≤ 99) (r : List Char) :
    parse12Colon (digitChar (h / 10) :: digitChar (h % 10) :: ':' :: r) = some (h, r) := by
  have h1 : h / 10 < 10 := by omega
  have h2 : h % 10 < 10 := by omega
  have hc : pyIsDigit ':' = false := by decide
  simp [parse12Colon, spanDigits, List.takeWhile, List.dropWhile,
    pyIsDigit_digitChar h1, pyIsDigit_digitChar h2, hc, digitsVal, List.foldl,
    digitVal_digitChar h1, digitVal_digitChar h2]
  omega

theorem parseSpaces1_cons {c : Char} (h : pyIsSpace c = false) (r : List Char) :
    parseSpaces1 (' ' :: c :: r) = some (c :: r) := by
  have hs : pyIsSpace ' ' = true := by decide
  simp [parseSpaces1, List.takeWhile, List.dropWhile, hs, h]

theorem matchAbs_absForm {d m y h mi : Nat} (hd : d ≤ 99) (hm : m ≤ 99)
    (hy : y ≤ 9999) (hh : h ≤ 99) (hmi : mi ≤ 99) (t : List Char) :
    matchAbs (absFormL d m y h mi ++ t) = some (d, m, y, h, mi) := by
  have pdot : ∀ r : List Char, parseLit ".".data ('.' :: r) = some r := fun r => rfl
  have s1 : pyIsSpace (digitChar (h / 10)) = false := pyIsSpace_digitChar (by omega)
  simp only [matchAbs, absFormL, List.cons_append, List.nil_append,
    parse2_split hd, parse2_split hm, parse4_split hy,
    parse12Colon_split hh, parse2_split hmi, parseSpaces1_cons s1, pdot,
    Option.bind_eq_bind, Option.some_bind]
  rfl

theorem natDigitsAux_one {fuel n : Nat} (hf : 1 ≤ fuel) (h : n < 10) :
    natDigitsAux fuel n = [digitChar n] := by
  match fuel, hf with
  | f + 1, _ => simp [natDigitsAux, h]

theorem natDigitsAux_two {fuel n : Nat} (hf : 2 ≤ fuel) (h1 : 10 ≤ n) (h2 : n ≤ 99) :
    natDigitsAux fuel n = [digitChar (n / 10), digitChar (n % 10)] := by
  match fuel, hf with
  | f + 1, _ =>
    simp only [natDigitsAux, show ¬ n < 10 by omega, if_false]
    rw [natDigitsAux_one (by omega) (by omega)]
    rfl

theorem natDigitsAux_three {fuel n : Nat} (hf : 3 ≤ fuel) (h1 : 100 ≤ n) (h2 : n ≤ 999) :
    natDigitsAux fuel n = [digitChar (n / 100), digitChar (n / 10 % 10), digitChar (n % 10)] := by
  match fuel, hf with
  | f + 1, _ =>
    simp only [natDigitsAux, show ¬ n < 10 by omega, if_false]
    rw [natDigitsAux_two (by omega) (by omega) (by omega)]
    rw [Nat.div_div_eq_div_mul]
    rfl

theorem natDigitsAux_four {fuel n : Nat} (hf : 4 ≤ fuel) (h1 : 1000 ≤ n) (h2 : n ≤ 9999) :
    natDigitsAux fuel n =
      [digitChar (n / 1000), digitChar (n / 100 % 10), digitChar (n / 10 % 10),
       digitChar (n % 10)] := by
  match fuel, hf with
  | f + 1, _ =>
    simp only [natDigitsAux, show ¬ n < 10 by omega, if_false]
    rw [natDigitsAux_three (by omega) (by omega) (by omega)]
    rw [Nat.div_div_eq_div_mul, Nat.div_div_eq_div_mul]
    rfl

theorem natDec_four {y : Nat} (h1 : 1000 ≤ y) (h2 : y ≤ 9999) :
    natDec y = [digitChar (y / 1000), digitChar (y / 100 % 10), digitChar (y / 10 % 10),
      digitChar (y % 10)] := by
  unfold natDec; exact natDigitsAux_four (by omega) h1 h2

theorem natDec_one {n : Nat} (h : n < 10) : natDec n = [digitChar n] := by
  unfold natDec; exact natDigitsAux_one (by omega) h

theorem natDec_two {n : Nat} (h1 : 10 ≤ n) (h2 : n ≤ 99) :
    natDec n = [digitChar (n / 10), digitChar (n % 10)] := by
  unfold natDec; exact natDigitsAux_two (by omega) h1 h2

theorem pad2L_eq {n : Nat} (h : n ≤ 99) :
    pad2L n = [digitChar (n / 10), digitChar (n % 10)] := by
  by_cases hn : n < 10
  · have h0 : n / 10 = 0 := by omega
    have hmod : n % 10 = n := Nat.mod_eq_of_lt hn
    unfold pad2L
    rw [if_pos hn, natDec_one hn, h0, hmod]
    rfl
  · unfold pad2L
    rw [if_neg hn]
    exact natDec_two (by omega) h

theorem strftime_absForm {d m y h mi : Nat} (hd : d ≤ 99) (hm : m ≤ 99)
    (h1 : 1000 ≤ y) (h2 : y ≤ 9999) (hh : h ≤ 99) (hmi : mi ≤ 99) :
    strftimeDmy ⟨y, m, d, h, mi⟩ = absForm d m y h mi := by
  simp [strftimeDmy, absForm, absFormL, pad2L_eq hd, pad2L_eq hm,
    natDec_four h1 h2, pad2L_eq hh, pad2L_eq hmi]

theorem pyLower_absForm {d m y h mi : Nat} (hd : d ≤ 99) (hm : m ≤ 99)
    (hy : y ≤ 9999) (hh : h ≤ 99) (hmi : mi ≤ 99) :
    pyLower (absFormL d m y h mi) = absFormL d m y h mi := by
  have l1 := pyLowerChar_digitChar (show d / 10 < 10 by omega)
  have l2 := pyLowerChar_digitChar (show d % 10 < 10 by omega)
  have l3 := pyLowerChar_digitChar (show m / 10 < 10 by omega)
  have l4 := pyLowerChar_digitChar (show m % 10 < 10 by omega)
  have l5 := pyLowerChar_digitChar (show y / 1000 < 10 by omega)
  have l6 := pyLowerChar_digitChar (show y / 100 % 10 < 10 by omega)
  have l7 := pyLowerChar_digitChar (show y / 10 % 10 < 10 by omega)
  have l8 := pyLowerChar_digitChar (show y % 10 < 10 by omega)
  have l9 := pyLowerChar_digitChar (show h / 10 < 10 by omega)
  have l10 := pyLowerChar_digitChar (show h % 10 < 10 by omega)
  have l11 := pyLowerChar_digitChar (show mi / 10 < 10 by omega)
  have l12 := pyLowerChar_digitChar (show mi % 10 < 10 by omega)
  have ldot : pyLowerChar '.' = '.' := by decide
  have lsp : pyLowerChar ' ' = ' ' := by decide
  have lcol : pyLowerChar ':' = ':' := by decide
  simp [pyLower, absFormL, l1, l2, l3, l4, l5, l6, l7, l8, l9, l10, l11, l12,
    ldot, lsp, lcol]

theorem pyStripL_cons {c : Char} (h : pyIsSpace c = false) (r : List Char) :
    pyStripL (c :: r) = c :: r := by
  unfold pyStripL
  simp [List.dropWhile_cons, h]

theorem pyStripR_append (l : List Char) {c : Char} (h : pyIsSpace c = false) :
    pyStripR (l ++ [c]) = l ++ [c] := by
  unfold pyStripR
  rw [List.reverse_append]
  simp [List.dropWhile_cons, h]

theorem pyStrip_cons_append {a c : Char} (mid : List Char)
    (ha : pyIsSpace a = false) (hc : pyIsSpace c = false) :
    pyStrip (a :: (mid ++ [c])) = a :: (mid ++ [c]) := by
  unfold pyStrip
  rw [pyStripL_cons ha]
  have he : a :: (mid ++ [c]) = (a :: mid) ++ [c] := by simp
  rw [he, pyStripR_append _ hc]

theorem rl_absForm {d m y h mi : Nat} (hd : d ≤ 99) (hm : m ≤ 99)
    (hy : y ≤ 9999) (hh : h ≤ 99) (hmi : mi ≤ 99) :
    pyStrip (pyLower (absFormL d m y h mi)) = absFormL d m y h mi := by
  rw [pyLower_absForm hd hm hy hh hmi]
  have ha : pyIsSpace (digitChar (d / 10)) = false := pyIsSpace_digitChar (by omega)
  have hc : pyIsSpace (digitChar (mi % 10)) = false := pyIsSpace_digitChar (by omega)
  have hsplit : absFormL d m y h mi =
      digitChar (d / 10) ::
        ([digitChar (d % 10), '.', digitChar (m / 10), digitChar (m % 10), '.',
          digitChar (y / 1000), digitChar (y / 100 % 10), digitChar (y / 10 % 10),
          digitChar (y % 10), ' ', digitChar (h / 10), digitChar (h % 10), ':',
          digitChar (mi / 10)] ++ [digitChar (mi % 10)]) := rfl
  rw [hsplit, pyStrip_cons_append _ ha hc]

theorem matchAbs_absForm0 {d m y h mi : Nat} (hd : d ≤ 99) (hm : m ≤ 99)
    (hy : y ≤ 9999) (hh : h ≤ 99) (hmi : mi ≤ 99) :
    matchAbs (absFormL d m y h mi) = some (d, m, y, h, mi) := by
  have := matchAbs_absForm hd hm hy hh hmi []
  rwa [List.append_nil] at this

theorem matchMinutes_absForm {d m y h mi : Nat} (hd : d ≤ 99) :
    matchMinutes (absFormL d m y h mi) = none := by
  have h1 : pyIsDigit (digitChar (d / 10)) = true := pyIsDigit_digitChar (by omega)
  have h2 : pyIsDigit (digitChar (d % 10)) = true := pyIsDigit_digitChar (by omega)
  have hdot : pyIsDigit '.' = false := by decide
  have hsp : pyIsSpace '.' = false := by decide
  simp [matchMinutes, parseDigits1, spanDigits, absFormL, List.takeWhile_cons,
    List.dropWhile_cons, h1, h2, hdot, parseSpaces1, hsp]

theorem matchHours_absForm {d m y h mi : Nat} (hd : d ≤ 99) :
    matchHours (absFormL d m y h mi) = none := by
  have h1 : pyIsDigit (digitChar (d / 10)) = true := pyIsDigit_digitChar (by omega)
  have h2 : pyIsDigit (digitChar (d % 10)) = true := pyIsDigit_digitChar (by omega)
  have hdot : pyIsDigit '.' = false := by decide
  have hsp : pyIsSpace '.' = false := by decide
  simp [matchHours, parseDigits1, spanDigits, absFormL, List.takeWhile_cons,
    List.dropWhile_cons, h1, h2, hdot, parseSpaces1, hsp]

theorem textualMap_absForm {d m y h mi : Nat} (hd : d ≤ 99) :
    textualMap (absFormL d m y h mi) = none := by
  have hne : ∀ c : Char, 58 ≤ c.toNat → ∀ r : List Char,
      absFormL d m y h mi ≠ c :: r := by
    intro c hc r he
    unfold absFormL at he
    injection he with h1 _
    exact digitChar_ne_big (by omega) hc h1
  have h1 : absFormL d m y h mi ≠ "час назад".data :=
    hne 'ч' (by decide) "ас назад".data
  have h2 : absFormL d m y h mi ≠ "два часа назад".data :=
    hne 'д' (by decide) "ва часа назад".data
  have h3 : absFormL d m y h mi ≠ "три часа назад".data :=
    hne 'т' (by decide) "ри часа назад".data
  simp [textualMap, h1, h2, h3]

theorem matchToday_absForm {d m y h mi : Nat} (hd : d ≤ 99) :
    matchToday (absFormL d m y h mi) = none := by
  have hne : digitChar (d / 10) ≠ 'с' := digitChar_ne_big (by omega) (by decide)
  have hlit : "сегодня в ".data = 'с' :: "егодня в ".data := rfl
  simp [matchToday, absFormL, hlit, parseLit, hne]

theorem matchYesterday_absForm {d m y h mi : Nat} (hd : d ≤ 99) :
    matchYesterday (absFormL d m y h mi) = none := by
  have hne : digitChar (d / 10) ≠ 'в' := digitChar_ne_big (by omega) (by decide)
  have hlit : "вчера в ".data = 'в' :: "чера в ".data := rfl
  simp [matchYesterday, absFormL, hlit, parseLit, hne]

theorem matchMonthDate_absForm {d m y h mi : Nat} (hd : d ≤ 99) :
    matchMonthDate (absFormL d m y h mi) = none := by
  have h1 : pyIsDigit (digitChar (d / 10)) = true := pyIsDigit_digitChar (by omega)
  have h2 : pyIsDigit (digitChar (d % 10)) = true := pyIsDigit_digitChar (by omega)
  have hdot : pyIsDigit '.' = false := by decide
  have hsp : pyIsSpace '.' = false := by decide
  simp [matchMonthDate, parse12Sp, spanDigits, absFormL, List.takeWhile_cons,
    List.dropWhile_cons, h1, h2, hdot, hsp]

theorem daysInMonth_le_31 (y m : Nat) : daysInMonth y m ≤ 31 := by
  unfold daysInMonth
  split
  · split <;> omega
  · split <;> omega

theorem validYMDHM_bounds {y m d h mi : Nat} (hv : validYMDHM y m d h mi = true) :
    d ≤ 99 ∧ m ≤ 99 ∧ y ≤ 9999 ∧ h ≤ 99 ∧ mi ≤ 99 := by
  have hd31 := daysInMonth_le_31 y m
  simp only [validYMDHM, Bool.and_eq_true, decide_eq_true_eq] at hv
  omega

/-! ## Claims -/

/-- C1: the claim states that `normalize` is a pure function of `raw` and a
caller-supplied `now`, never reading the system clock in the matching logic.
The code instead samples `datetime.now()` inside `parse_date` (parser-vk.py
line 21, parser-tg.py line 22); modelling the sampled instant explicitly,
the very same raw phrase "5 минут назад" produces different results at two
different sampling instants, so the result depends on when the call happens,
not only on the caller's arguments. -/
theorem c1_clock_read :
    parse_date_vk "5 минут назад" ⟨2024, 1, 1, 10, 0⟩ ≠
      parse_date_vk "5 минут назад" ⟨2024, 1, 1, 11, 0⟩ ∧
    parse_date_tg "5 минут назад" ⟨2024, 1, 1, 10, 0⟩ ≠
      parse_date_tg "5 минут назад" ⟨2024, 1, 1, 11, 0⟩ := by
  constructor <;> decide

/-- C10: inputs matching a recognized Cyrillic pattern but carrying
out-of-range time or calendar components make `parse_date` raise a
`ValueError` (modelled as `none`), in both script variants and for every
sampled instant `now`: "сегодня в 25:00" fails in `now.replace`,
"вчера в 10:61" fails in `.replace` after the day subtraction, and
"31 фев в 10:00" fails in the `datetime` constructor (February never has
31 days, leap year or not). -/
theorem c10_cyrillic_valueerror (now : PyDateTime) :
    parse_date_vk "сегодня в 25:00" now = none ∧
    parse_date_vk "вчера в 10:61" now = none ∧
    parse_date_vk "31 фев в 10:00" now = none ∧
    parse_date_tg "сегодня в 25:00" now = none ∧
    parse_date_tg "вчера в 10:61" now = none ∧
    parse_date_tg "31 фев в 10:00" now = none := by
  refine ⟨rfl, ?_, ?_, rfl, ?_, ?_⟩
  · show (Option.map strftimeDmy
      ((subMinutes now 1440).bind (fun d => replaceHM d 10 61))) = none
    cases subMinutes now 1440 <;> simp [replaceHM]
  · show (Option.map strftimeDmy (mkDatetime now.year 2 31 10 0)) = none
    cases h : isLeap now.year <;>
      simp [mkDatetime, validYMDHM, daysInMonth, h]
  · show (Option.map strftimeDmy
      ((subMinutes now 1440).bind (fun d => replaceHM d 10 61))) = none
    cases subMinutes now 1440 <;> simp [replaceHM]
  · show (Option.map strftimeDmy (mkDatetime now.year 2 31 10 0)) = none
    cases h : isLeap now.year <;>
      simp [mkDatetime, validYMDHM, daysInMonth, h]

/-- C8: for every sampled instant `now`, the textual phrase "два часа назад"
and the numeric phrase "2 часа назад" normalize to the same string, namely
`now` minus 2 hours (120 minutes) formatted as `DD.MM.YYYY HH:MM` — in both
script variants (`subMinutes now 120` is `now - timedelta(hours=2)`, `none`
exactly when Python's subtraction overflows below year 1, in which case both
phrases raise identically). -/
theorem c8_two_hours_agree (now : PyDateTime) :
    parse_date_vk "два часа назад" now = (subMinutes now 120).map strftimeDmy ∧
    parse_date_vk "2 часа назад" now = (subMinutes now 120).map strftimeDmy ∧
    parse_date_tg "два часа назад" now = (subMinutes now 120).map strftimeDmy ∧
    parse_date_tg "2 часа назад" now = (subMinutes now 120).map strftimeDmy :=
  ⟨rfl, rfl, rfl, rfl⟩

/-- C9: an input matching none of the recognized date patterns is returned
verbatim by `parse_date` (both variants), and on such inputs normalizing
twice equals normalizing once. -/
theorem c9_fallback_idempotent (raw : String) (now : PyDateTime) :
    (vkNoMatch raw →
      parse_date_vk raw now = some raw ∧
      (parse_date_vk raw now).bind (fun s => parse_date_vk s now) =
        parse_date_vk raw now) ∧
    (tgNoMatch raw →
      parse_date_tg raw now = some raw ∧
      (parse_date_tg raw now).bind (fun s => parse_date_tg s now) =
        parse_date_tg raw now) := by
  constructor
  · rintro ⟨h1, h2, h3, h4, h5, h6⟩
    by_cases hr : raw = ""
    · subst hr; exact ⟨rfl, rfl⟩
    · have hv : parse_date_vk raw now = some raw := by
        simp only [parse_date_vk, if_neg hr, h1, h2, h3, h4, h5, h6]
      exact ⟨hv, by rw [hv]; exact hv⟩
  · rintro ⟨h0, h1, h2, h3, h4, h5, h6⟩
    by_cases hr : raw = ""
    · subst hr; exact ⟨rfl, rfl⟩
    · have hv : parse_date_tg raw now = some raw := by
        simp only [parse_date_tg, if_neg hr, h0, h1, h2, h3, h4, h5, h6]
      exact ⟨hv, by rw [hv]; exact hv⟩

/-- C9 witness at "blah blah". -/
theorem c9_witness :
    vkNoMatch "blah blah" ∧ tgNoMatch "blah blah" ∧
    parse_date_vk "blah blah" ⟨2024, 1, 1, 10, 0⟩ = some "blah blah" ∧
    parse_date_tg "blah blah" ⟨2024, 1, 1, 10, 0⟩ = some "blah blah" :=
  ⟨by decide, by decide,
   ((c9_fallback_idempotent "blah blah" ⟨2024, 1, 1, 10, 0⟩).1 (by decide)).1,
   ((c9_fallback_idempotent "blah blah" ⟨2024, 1, 1, 10, 0⟩).2 (by decide)).1⟩

/-- C3: an input whose (lowered, stripped) form matches the absolute digit
shape `DD.MM.YYYY HH:MM` with values that do not form a valid calendar
date-time makes `parse_date` of `parser-tg.py` raise (`none`): the error is
propagated and no result is returned. -/
theorem c3_invalid_abs_raises (s : String) (now : PyDateTime)
    (d m y h mi : Nat)
    (habs : matchAbs (pyStrip (pyLower s.data)) = some (d, m, y, h, mi))
    (hbad : validYMDHM y m d h mi = false) :
    parse_date_tg s now = none := by
  by_cases hs : s = ""
  · subst hs; simp [pyStrip, pyStripL, pyStripR, pyLower, matchAbs,
      parseNDigits, parseNDigitsAux] at habs
  · simp only [parse_date_tg, if_neg hs, habs, mkDatetime, hbad,
      Bool.false_eq_true, if_false, Option.map_none']

/-- C3 witness at "31.02.2024 10:00" (day 31 in February). -/
theorem c3_witness :
    matchAbs (pyStrip (pyLower "31.02.2024 10:00".data)) =
      some (31, 2, 2024, 10, 0) ∧
    validYMDHM 2024 2 31 10 0 = false ∧
    parse_date_tg "31.02.2024 10:00" ⟨2024, 1, 1, 0, 0⟩ = none :=
  ⟨by decide, by decide,
   c3_invalid_abs_raises "31.02.2024 10:00" ⟨2024, 1, 1, 0, 0⟩
     31 2 2024 10 0 (by decide) (by decide)⟩

/-- C2 (amended): an input whose lowered, stripped form matches the absolute
prefix pattern with calendar-valid groups is answered with the canonical
re-serialization of those groups (the matched `DD.MM.YYYY HH:MM` prefix, not
necessarily the whole input); in particular an exact-form valid string with
two-digit hour and a year `≥ 1000` is returned unchanged by the tg
normalizer, and also by the vk normalizer, which has no absolute pattern and
hits its verbatim fallback on such strings. -/
theorem c2_abs_normalization :
    (∀ (s : String) (now : PyDateTime) (d m y h mi : Nat),
      matchAbs (pyStrip (pyLower s.data)) = some (d, m, y, h, mi) →
      validYMDHM y m d h mi = true →
      parse_date_tg s now = some (strftimeDmy ⟨y, m, d, h, mi⟩)) ∧
    (∀ (d m y h mi : Nat) (now : PyDateTime),
      validYMDHM y m d h mi = true → 1000 ≤ y →
      parse_date_tg (absForm d m y h mi) now = some (absForm d m y h mi)) ∧
    (∀ (d m y h mi : Nat) (now : PyDateTime),
      validYMDHM y m d h mi = true → 1000 ≤ y →
      parse_date_vk (absForm d m y h mi) now = some (absForm d m y h mi)) := by
  refine ⟨?_, ?_, ?_⟩
  · intro s now d m y h mi habs hv
    by_cases hs : s = ""
    · subst hs
      simp [pyStrip, pyStripL, pyStripR, pyLower, matchAbs, parseNDigits,
        parseNDigitsAux] at habs
    · simp only [parse_date_tg, if_neg hs, habs, mkDatetime, hv, if_true,
        Option.map_some']
  · intro d m y h mi now hv hy1000
    obtain ⟨hd, hm, hy, hh, hmi⟩ := validYMDHM_bounds hv
    have hne : absForm d m y h mi ≠ "" := by
      intro he
      have hdat := congrArg String.data he
      exact absurd hdat (by simp [absForm, absFormL])
    have hdata : (absForm d m y h mi).data = absFormL d m y h mi := rfl
    simp only [parse_date_tg, if_neg hne, hdata, rl_absForm hd hm hy hh hmi,
      matchAbs_absForm0 hd hm hy hh hmi, mkDatetime, hv, if_true,
      Option.map_some', strftime_absForm hd hm hy1000 hy hh hmi]
  · intro d m y h mi now hv hy1000
    obtain ⟨hd, hm, hy, hh, hmi⟩ := validYMDHM_bounds hv
    have hne : absForm d m y h mi ≠ "" := by
      intro he
      have hdat := congrArg String.data he
      exact absurd hdat (by simp [absForm, absFormL])
    have hdata : (absForm d m y h mi).data = absFormL d m y h mi := rfl
    simp only [parse_date_vk, if_neg hne, hdata, rl_absForm hd hm hy hh hmi,
      matchMinutes_absForm hd, textualMap_absForm hd, matchHours_absForm hd,
      matchToday_absForm hd, matchYesterday_absForm hd, matchMonthDate_absForm hd]

/-- C2 counterexample: an absolute-form string with valid calendar values
followed by more text is not returned unchanged by the tg normalizer — only
its matched prefix is re-emitted. -/
theorem c2_counterexample :
    parse_date_tg "01.02.2024 10:00 x" ⟨2024, 1, 1, 0, 0⟩ =
      some "01.02.2024 10:00" ∧
    ("01.02.2024 10:00" : String) ≠ "01.02.2024 10:00 x" := by
  refine ⟨by decide, by decide⟩

/-- C2 witness: the three parts at a concrete valid date. -/
theorem c2_witness :
    parse_date_tg "01.02.2024 10:00 хвост" ⟨2025, 5, 5, 5, 5⟩ =
      some "01.02.2024 10:00" ∧
    parse_date_tg "01.02.2024 10:00" ⟨2025, 5, 5, 5, 5⟩ =
      some "01.02.2024 10:00" ∧
    parse_date_vk "01.02.2024 10:00" ⟨2025, 5, 5, 5, 5⟩ =
      some "01.02.2024 10:00" :=
  ⟨(c2_abs_normalization.1 "01.02.2024 10:00 хвост" ⟨2025, 5, 5, 5, 5⟩
      1 2 2024 10 0 (by decide) (by decide)).trans (by decide),
   (c2_abs_normalization.2.1 1 2 2024 10 0 ⟨2025, 5, 5, 5, 5⟩
      (by decide) (by decide)).trans (by decide),
   (c2_abs_normalization.2.2 1 2 2024 10 0 ⟨2025, 5, 5, 5, 5⟩
      (by decide) (by decide)).trans (by decide)⟩

/-- C6: one step of the Layout-A scan (`parser-tg.py`).  With a matched
header line: a following comment with no 1–2-digit number emits nothing and
the cursor passes both lines; a comment with a number emits exactly one
record with the captured name, number and raw date and the cursor advances
by 2; a non-header line advances the cursor by 1; a matched header that is
the last line yields no record. -/
theorem c6_layout_a_step (l : String) (nd : String × String)
    (hh : headerMatch l = some nd) :
    (∀ (c : String) (rest : List String), numberSearch c.data = none →
      tgLoop (l :: c :: rest) = tgLoop rest) ∧
    (∀ (c : String) (rest : List String) (n : Nat), numberSearch c.data = some n →
      tgLoop (l :: c :: rest) = ⟨nd.1, n, nd.2⟩ :: tgLoop rest) ∧
    (∀ (l2 : String) (rest : List String), headerMatch l2 = none →
      tgLoop (l2 :: rest) = tgLoop rest) ∧
    tgLoop [l] = [] := by
  refine ⟨?_, ?_, ?_, ?_⟩
  · intro c rest hn; simp [tgLoop, hh, hn]
  · intro c rest n hn; simp [tgLoop, hh, hn]
  · intro l2 rest hn; simp [tgLoop, hn]
  · simp [tgLoop, hh]

/-- C6 witness: a concrete header+comment pair, a numberless pair, and a
trailing header. -/
theorem c6_witness :
    headerMatch "Alice, [01.02.2024 10:00]" = some ("Alice", "01.02.2024 10:00") ∧
    tgLoop ["Alice, [01.02.2024 10:00]", "я за 7"] =
      [⟨"Alice", 7, "01.02.2024 10:00"⟩] ∧
    tgLoop ["Alice, [01.02.2024 10:00]", "без номера", "x, [01.02.2024 10:00"] =
      tgLoop ["x, [01.02.2024 10:00"] ∧
    tgLoop ["Alice, [01.02.2024 10:00]"] = [] := by
  have h := c6_layout_a_step "Alice, [01.02.2024 10:00]"
    ("Alice", "01.02.2024 10:00") (by decide)
  refine ⟨by decide, ?_, ?_, h.2.2.2⟩
  · exact (h.2.1 "я за 7" [] 7 (by decide)).trans (by decide)
  · exact h.1 "без номера" ["x, [01.02.2024 10:00"] (by decide)

/-- C7 counterexample: on `["[A](https://vk.com/a)", "abc", "7"]` the first
substantive comment line of the candidate block is "abc" (what the `j`-loop
of the strict variant selects) and it carries no 1–2-digit number, yet the
loose variant (`parser.py`, cited in the claim's sources) still emits the
record `(A, 7)` — it keeps searching the rest of the block for a number —
while the strict variant emits nothing.  So "a voter-link candidate whose
comment line contains no 1–2-digit number yields zero records" is false as
stated for the loose variant. -/
theorem c7_counterexample :
    vkFindComment ["abc".data, "7".data] = some ("abc".data, ["7".data]) ∧
    numberSearch (pyStrip "abc".data) = none ∧
    parse_votes_py ["[A](https://vk.com/a)", "abc", "7"] = [⟨"A", 7, ""⟩] ∧
    parse_votes_vk ["[A](https://vk.com/a)", "abc", "7"] = [] := by
  refine ⟨by decide, by decide, by decide, by decide⟩

/-- C7 (amended): both Layout-B scans terminate — the cursor strictly
increases in every branch of both variants — and the two variants abandon a
candidate differently.  In the strict variant (`parser-vk.py`) a voter-link
candidate whose comment line carries no 1–2-digit number emits no record and
scanning resumes exactly at the line after the abandoned comment (hence no
later voter line is ever skipped).  In the loose variant (`parser.py`) the
participant number is sought across the whole candidate block — the first
block line bearing a number supplies it, so a numberless first comment line
does not abandon the candidate — and a candidate is abandoned (zero records)
only when no non-skippable block line carries a number, with scanning
resuming at the next voter-link line (the block end), not at the line after
the comment. -/
theorem c7_scan_progress :
    (∀ (lines : List (List Char)) (i : Nat), i < vkNext lines i) ∧
    (∀ (lines : List (List Char)) (i : Nat), i < pyNext lines i) ∧
    (∀ (fuel : Nat) (l comment : List Char) (rest rest2 : List (List Char))
        (name : List Char),
      userSearch (pyStrip l) = some name →
      vkFindComment rest = some (comment, rest2) →
      numberSearch (pyStrip comment) = none →
      vkLoopF (fuel + 1) (l :: rest) = vkLoopF fuel rest2) ∧
    (∀ (fuel : Nat) (l : List Char) (rest : List (List Char)) (name : List Char),
      pyUser l = some name →
      pyFindParticipant (rest.takeWhile fun x => !pyIsUser x) = none →
      pyLoopF (fuel + 1) (l :: rest) =
        pyLoopF fuel (rest.dropWhile fun x => !pyIsUser x)) ∧
    (∀ (fuel : Nat) (l : List Char) (rest : List (List Char)) (name : List Char)
        (n : Nat),
      pyUser l = some name →
      pyFindParticipant (rest.takeWhile fun x => !pyIsUser x) = some n →
      pyLoopF (fuel + 1) (l :: rest) =
        ⟨⟨name⟩, n, pyRawDate (rest.takeWhile fun x => !pyIsUser x)⟩ ::
          pyLoopF fuel (rest.dropWhile fun x => !pyIsUser x)) ∧
    (∀ block : List (List Char), pyFindParticipant block = none →
      ∀ b ∈ block, pySkippable b = true ∨ numberSearch b = none) := by
  refine ⟨?_, ?_, ?_, ?_, ?_, ?_⟩
  · intro lines i
    unfold vkNext
    cases hu : userSearch (pyStrip (lines.getD i [])) with
    | none => simp only [hu]; omega
    | some _ =>
      simp only [hu]
      cases hj : vkFindCommentIdx lines (i + 1) with
      | none => simp only [hj]; omega
      | some j =>
        simp only [hj]
        have hj' : vkFindCommentIdxAux (lines.drop (i + 1)) (i + 1) = some j := hj
        have := vkFindCommentIdxAux_ge (lines.drop (i + 1)) (i + 1) j hj'
        omega
  · intro lines i
    unfold pyNext
    by_cases hu : pyIsUser (lines.getD i [])
    · simp only [hu, if_true]
      have := pyBlockEndAux_ge (lines.drop (i + 1)) (i + 1)
      omega
    · simp only [hu, if_false, Bool.false_eq_true]; omega
  · intro fuel l comment rest rest2 name hu hc hn
    simp [vkLoopF, hu, hc, hn]
  · intro fuel l rest name hu hp
    simp [pyLoopF, hu, hp]
  · intro fuel l rest name n hu hp
    simp [pyLoopF, hu, hp]
  · intro block
    induction block with
    | nil => intro _ b hb; simp at hb
    | cons c cs ih =>
      intro hnone b hb
      by_cases hs : pySkippable c = true
      · simp only [pyFindParticipant, hs, if_true] at hnone
        rcases List.mem_cons.mp hb with he | hmem
        · subst he; exact Or.inl hs
        · exact ih hnone b hmem
      · simp only [pyFindParticipant, hs, if_false, Bool.false_eq_true] at hnone
        cases hn : numberSearch c with
        | none =>
          simp only [hn] at hnone
          rcases List.mem_cons.mp hb with he | hmem
          · subst he; exact Or.inr hn
          · exact ih hnone b hmem
        | some k => simp [hn] at hnone

/-- C5 counterexample: on a line that is one run of three consecutive digits,
`number_re` still extracts a number (its first two digits), so the claim's
"never taken from a run of three or more consecutive digits" fails on the
code. -/
theorem c5_counterexample :
    numberSearch "105".data = some 10 ∧
    "105".data.all pyIsDigit = true ∧ "105".data.length = 3 := by
  decide

/-- C5 (amended): every number extracted by `number_re` lies in 1..99 and is
never 0 (the leading digit class is `[1-9]`), and hence every emitted
record of all three extractors has `participant` in 1..99; the match is the
leftmost nonzero digit greedily extended by one more digit, which may sit
inside a longer digit run. -/
theorem c5_participant_range :
    (∀ (l : List Char) (n : Nat), numberSearch l = some n → 1 ≤ n ∧ n ≤ 99) ∧
    (∀ (lines : List String) (r : VoteRecord), r ∈ parse_votes_tg lines →
      1 ≤ r.participant ∧ r.participant ≤ 99) ∧
    (∀ (lines : List String) (r : VoteRecord), r ∈ parse_votes_vk lines →
      1 ≤ r.participant ∧ r.participant ≤ 99) ∧
    (∀ (lines : List String) (r : VoteRecord), r ∈ parse_votes_py lines →
      1 ≤ r.participant ∧ r.participant ≤ 99) := by
  refine ⟨numberSearch_bound, ?_, ?_, ?_⟩
  · intro lines r hr
    exact tgLoop_bound lines.length lines (Nat.le_refl _) r hr
  · intro lines r hr
    exact vkLoopF_bound lines.length (lines.map String.data) r hr
  · intro lines r hr
    exact pyLoopF_bound lines.length (lines.map String.data) r hr

/-- C5 witness: concrete extractions stay in range. -/
theorem c5_witness :
    (1 ≤ 7 ∧ 7 ≤ 99) ∧ (1 ≤ 10 ∧ 10 ≤ 99) :=
  ⟨c5_participant_range.1 "за 7".data 7 (by decide),
   c5_participant_range.2.2.1 ["[A](https://vk.com/a)", "105"]
     ⟨"A", 10, ""⟩ (by decide)⟩

/-- C4 counterexample: a Layout-B block in which the line exactly two after
the marker ("y") is not a link-leading bracketed phrase, yet the loose
variant (`parser.py`) emits the record with a non-empty raw date taken from
a LATER line — so the claim's "raw date is empty unless the line two after
the marker matches, in both variants" is false for the loose variant (the
two variants also differ in where they look, not only in how strictly the
date line must match). -/
theorem c4_counterexample :
    parse_votes_py ["[A](https://vk.com/a)", "7", "Показать список оценивших",
        "x", "y", "[5 янв в 10:00](z)"] =
      [⟨"A", 7, "5 янв в 10:00"⟩] ∧
    parse_votes_vk ["[A](https://vk.com/a)", "7", "Показать список оценивших",
        "x", "y", "[5 янв в 10:00](z)"] =
      [⟨"A", 7, ""⟩] ∧
    strictDateLine (pyStrip "y".data) = none ∧
    ("5 янв в 10:00" : String) ≠ "" := by
  refine ⟨by decide, by decide, by decide, by decide⟩

/-- C4 (amended): in the strict variant (`parser-vk.py`) the raw vote date
is read from the line exactly two lines after the first marker line — empty
when that offset line is absent or not a link-leading bracketed phrase, and
empty when no marker occurs; the loose variant (`parser.py`) instead scans
every block line after the first marker line and takes the first bracketed
month-name date phrase wherever it sits. -/
theorem c4_marker_offset :
    (∀ (pre : List (List Char)) (l : List Char) (rest : List (List Char)),
      (∀ x ∈ pre, containsL markerL x = false) → containsL markerL l = true →
      findRawDateVk (pre ++ l :: rest) =
        (match rest with
         | _ :: d :: _ =>
           (match strictDateLine (pyStrip d) with
            | some g => (⟨g⟩ : String)
            | none => "")
         | _ => "")) ∧
    (∀ ls : List (List Char), (∀ x ∈ ls, containsL markerL x = false) →
      findRawDateVk ls = "") ∧
    (∀ (pre : List (List Char)) (l : List Char) (rest : List (List Char)),
      (∀ x ∈ pre, containsL markerL x = false) → containsL markerL l = true →
      pyRawDate (pre ++ l :: rest) =
        (match rest.findSome? pyDateSearch with
         | some g => (⟨g⟩ : String)
         | none => "")) := by
  refine ⟨?_, ?_, ?_⟩
  · intro pre
    induction pre with
    | nil => intro l rest _ hl; simp [findRawDateVk, hl]
    | cons p pre ih =>
      intro l rest hpre hl
      have hp : containsL markerL p = false := hpre p (List.mem_cons_self p pre)
      simp only [List.cons_append, findRawDateVk, hp, Bool.false_eq_true, if_false]
      exact ih l rest (fun x hx => hpre x (List.mem_cons_of_mem p hx)) hl
  · intro ls h
    induction ls with
    | nil => rfl
    | cons p rest ih =>
      have hp : containsL markerL p = false := h p (List.mem_cons_self p rest)
      simp only [findRawDateVk, hp, Bool.false_eq_true, if_false]
      exact ih (fun x hx => h x (List.mem_cons_of_mem p hx))
  · intro pre
    induction pre with
    | nil => intro l rest _ hl; simp [pyRawDate, hl]
    | cons p pre ih =>
      intro l rest hpre hl
      have hp : containsL markerL p = false := hpre p (List.mem_cons_self p pre)
      simp only [List.cons_append, pyRawDate, hp, Bool.false_eq_true, if_false]
      exact ih l rest (fun x hx => hpre x (List.mem_cons_of_mem p hx)) hl

/-- C4 witness: the strict offset rule and the loose forward search at
concrete blocks. -/
theorem c4_witness :
    findRawDateVk ["Показать список оценивших".data, "x".data,
      "[дата](u)".data] = "дата" ∧
    pyRawDate ["Показать список оценивших".data, "x".data, "y".data,
      "[5 янв в 10:00](u)".data] = "5 янв в 10:00" :=
  ⟨(c4_marker_offset.1 [] "Показать список оценивших".data
      ["x".data, "[дата](u)".data] (by simp) (by decide)).trans (by decide),
   (c4_marker_offset.2.2 [] "Показать список оценивших".data
      ["x".data, "y".data, "[5 янв в 10:00](u)".data] (by simp)
      (by decide)).trans (by decide)⟩

/-- C7 witness: progress at a concrete position, a concrete strict-variant
candidate resuming after its numberless comment, and a concrete loose-variant
candidate whose block has no number resuming at the block end. -/
theorem c7_witness :
    0 < vkNext [] 0 ∧ 0 < pyNext [] 0 ∧
    vkLoopF 2 ["[A](https://vk.com/a)".data, "пусто".data] = vkLoopF 1 [] ∧
    pyLoopF 2 ["[B](https://vk.com/b)".data, "пусто".data] =
      pyLoopF 1 (["пусто".data].dropWhile fun x => !pyIsUser x) :=
  ⟨c7_scan_progress.1 [] 0, c7_scan_progress.2.1 [] 0,
   c7_scan_progress.2.2.1 1 "[A](https://vk.com/a)".data "пусто".data
     ["пусто".data] [] "A".data (by decide) (by decide) (by decide),
   c7_scan_progress.2.2.2.1 1 "[B](https://vk.com/b)".data
     ["пусто".data] "B".data (by decide) (by decide)⟩

end VkScripts
